import Mathlib

/-!
Shallow embedding of the core of `src/gopher_browser.cpp` (a Gopher protocol
browser): the wire-level receive loop, the menu / text-file parsers, and the
navigation state machine (history push, navigate, back, selection movement).

C++ `std::string`s are modelled as Lean `String`s, machine `int`s as `Int`
(all values involved are tiny, far from any overflow), and the blocking
network fetch as an oracle function `String → String → Int → String` giving
the response bytes for a `(host, selector, port)` request.
-/

-- ===== Constants (from the top of gopher_browser.cpp) =====

def kMaxHistory : Nat := 50

def kDefaultGopherPort : Int := 70

/-- `kMaxResponseSize = 512 * 1024` (512KB max response). -/
def kMaxResponseSize : Nat := 512 * 1024

/-- `recv` is called with `sizeof(buffer) - 1 = 4095` as the size limit,
so a single received chunk holds at most 4095 bytes. -/
def kRecvChunkSize : Nat := 4095

-- Gopher item type characters (enum GopherItemType)

def GOPHER_TEXT : Char := '0'
def GOPHER_MENU : Char := '1'
def GOPHER_CSO : Char := '2'
def GOPHER_ERROR : Char := '3'
def GOPHER_SEARCH : Char := '7'
def GOPHER_TELNET : Char := '8'
def GOPHER_REDUNDANT : Char := '+'
def GOPHER_TN3270 : Char := 'T'
def GOPHER_INFO : Char := 'i'
def GOPHER_HTML : Char := 'h'

-- ===== Data structures =====

structure GopherItem where
  type : Char
  display : String
  selector : String
  host : String
  port : Int
deriving DecidableEq

/-- `GopherItem::is_selectable`. -/
def GopherItem.is_selectable (it : GopherItem) : Bool :=
  it.type ≠ GOPHER_INFO && it.type ≠ GOPHER_ERROR &&
  it.type ≠ '+' && it.type ≠ GOPHER_CSO &&
  it.type ≠ GOPHER_TELNET && it.type ≠ GOPHER_TN3270

/-- Out-of-range `items[i]` accesses are undefined behaviour in the C++;
the model returns this (non-selectable) placeholder instead.  All theorems
below keep indices in range, so the placeholder is never observable. -/
def defaultGopherItem : GopherItem :=
  { type := GOPHER_INFO, display := "", selector := "", host := "", port := kDefaultGopherPort }

structure GopherPage where
  host : String
  selector : String
  port : Int
  items : List GopherItem
  raw_text : String
  is_menu : Bool
deriving DecidableEq

structure HistoryEntry where
  host : String
  selector : String
  port : Int
deriving DecidableEq

/-- The mutable globals of the application that the navigation layer touches:
`current_page`, `history`, `scroll_offset`, `selected_index`, `visible_lines`
(set by the renderer), `is_loading` and `status_message`. -/
structure BrowserState where
  current_page : GopherPage
  history : List HistoryEntry
  scroll_offset : Int
  selected_index : Int
  visible_lines : Int
  is_loading : Bool
  status_message : String
deriving DecidableEq

-- ===== Utility functions =====

/-- The character class `" \t\r\n"` used by `trim`. -/
def is_trim_char (c : Char) : Bool :=
  c = ' ' || c = '\t' || c = '\r' || c = '\n'

/-- `trim`: drop characters of `" \t\r\n"` from both ends
(`find_first_not_of` / `find_last_not_of` / `substr`). -/
def trim (s : String) : String :=
  String.mk (((s.data.dropWhile is_trim_char).reverse.dropWhile is_trim_char).reverse)

/-- The character loop of `split`: accumulate a token, emit it at each
delimiter, and emit the final token at the end of the string. -/
def split_go (delim : Char) : List Char → String → List String
  | [], token => [token]
  | c :: rest, token =>
    if c = delim then token :: split_go delim rest ""
    else split_go delim rest (token.push c)

/-- `split(s, delim)`. -/
def split (s : String) (delim : Char) : List String :=
  split_go delim s.data ""

/-- The digit-consuming loop of C `atoi`: accumulate decimal digits,
stop at the first non-digit. -/
def atoi_digits : List Char → Int → Int
  | [], acc => acc
  | c :: cs, acc =>
    if c.isDigit then atoi_digits cs (acc * 10 + ((c.toNat - 48 : Nat) : Int))
    else acc

/-- The C `isspace` class used by `atoi`. -/
def c_isspace (c : Char) : Bool :=
  c = ' ' || c = '\t' || c = '\n' || c = Char.ofNat 11 || c = Char.ofNat 12 || c = '\r'

/-- C `atoi`: skip whitespace, then an optional sign, then decimal digits;
zero when no digits are present. -/
def atoi (s : String) : Int :=
  match s.data.dropWhile c_isspace with
  | '-' :: cs => -(atoi_digits cs 0)
  | '+' :: cs => atoi_digits cs 0
  | cs => atoi_digits cs 0

-- ===== Network receive loop (fetch_gopher) =====

/-- `response += buffer` appends `buffer` as a NUL-terminated C string:
bytes from the first NUL onward are dropped. -/
def cstr (s : String) : String :=
  String.mk (s.data.takeWhile (fun c => c ≠ Char.ofNat 0))

/-- The `recv` loop of `fetch_gopher`: the argument list holds the successive
(non-empty) chunks the peer would deliver; reading stops when the peer closes
(list exhausted) or when the accumulated response exceeds `kMaxResponseSize`
(the "Safety limit" break, checked after the append). -/
def recv_loop : List String → String → String
  | [], response => response
  | chunk :: rest, response =>
    let response2 := response ++ cstr chunk
    if kMaxResponseSize < response2.length then response2
    else recv_loop rest response2

/-- Length-level mirror of `recv_loop`, used to reason about byte counts
without materialising half-megabyte strings. -/
def recv_len : List Nat → Nat → Nat
  | [], n => n
  | k :: ks, n =>
    let n2 := n + k
    if kMaxResponseSize < n2 then n2
    else recv_len ks n2

-- ===== Gopher protocol parsing =====

/-- `parse_gopher_line`: first character is the type; the rest is split on
tabs into display, selector, host and port, with missing fields defaulting
to empty / port 70, and a non-positive or non-numeric port reset to 70. -/
def parse_gopher_line (line : String) : GopherItem :=
  match line.data with
  | [] => { type := GOPHER_INFO, display := "", selector := "", host := "", port := kDefaultGopherPort }
  | c :: rest =>
    let parts := split (String.mk rest) '\t'
    { type := c
      display := parts.getD 0 ""
      selector := parts.getD 1 ""
      host := parts.getD 2 ""
      port :=
        let port_str := trim (parts.getD 3 "")
        if port_str = "" then kDefaultGopherPort
        else
          let p := atoi port_str
          if p ≤ 0 then kDefaultGopherPort else p }

/-- Remove one trailing CR if present (`if (!line.empty() && line.back() == '\r')`). -/
def stripCR (line : String) : String :=
  if line.data.getLast? = some '\r' then String.mk line.data.dropLast else line

/-- The character loop of `parse_gopher_menu`: on each `'\n'` strip one CR,
stop at a line equal to `"."`, skip empty lines, parse the rest; at end of
input flush a pending line unless it is empty or `"."` (note: without the
CR strip). -/
def parse_menu_go : List Char → String → List GopherItem
  | [], line => if line ≠ "" ∧ line ≠ "." then [parse_gopher_line line] else []
  | c :: cs, line =>
    if c = '\n' then
      let l := stripCR line
      if l = "." then []
      else if l ≠ "" then parse_gopher_line l :: parse_menu_go cs ""
      else parse_menu_go cs ""
    else parse_menu_go cs (line.push c)

/-- `parse_gopher_menu(response, page)`: clears `items`, sets `is_menu`,
leaves every other field of the page (including `raw_text`) untouched. -/
def parse_gopher_menu (response : String) (page : GopherPage) : GopherPage :=
  { page with items := parse_menu_go response.data "", is_menu := true }

/-- The Info item produced for one line of a text file.  The C++ leaves the
`port` field of these items uninitialized (only `type` and `display` are
assigned); the model fixes it to the default port, and no theorem about text
pages depends on it. -/
def mkInfoItem (line : String) : GopherItem :=
  { type := GOPHER_INFO, display := line, selector := "", host := "", port := kDefaultGopherPort }

/-- The character loop of `parse_text_file`: same CR stripping and `"."`
terminator as the menu loop, but every line, including empty ones, becomes
an Info item. -/
def parse_text_go : List Char → String → List GopherItem
  | [], line => if line ≠ "" ∧ line ≠ "." then [mkInfoItem line] else []
  | c :: cs, line =>
    if c = '\n' then
      let l := stripCR line
      if l = "." then []
      else mkInfoItem l :: parse_text_go cs ""
    else parse_text_go cs (line.push c)

/-- `parse_text_file(response, page)`: clears `items`, clears `is_menu`,
stores the untouched response in `raw_text`. -/
def parse_text_file (response : String) (page : GopherPage) : GopherPage :=
  { page with
    items := parse_text_go response.data ""
    is_menu := false
    raw_text := response }

-- ===== Line-level description of the parsers (used to state C4/C5/C6) =====

/-- The sequence of lines the parsing loops see: split on `'\n'` with one
trailing CR stripped from each newline-terminated line; a final unterminated
line is kept verbatim (no CR strip), and an empty pending line at end of
input is not a line. -/
def to_lines : List Char → String → List String
  | [], line => if line = "" then [] else [line]
  | c :: cs, line =>
    if c = '\n' then stripCR line :: to_lines cs ""
    else to_lines cs (line.push c)

/-- The pending (unterminated) final line of the input. -/
def pending : List Char → String → String
  | [], line => line
  | c :: cs, line =>
    if c = '\n' then pending cs ""
    else pending cs (line.push c)

-- ===== Navigation =====

/-- The history entry recorded for a page (`entry.host/selector/port = current_page....`). -/
def page_entry (p : GopherPage) : HistoryEntry :=
  { host := p.host, selector := p.selector, port := p.port }

/-- The `while (history.size() > kMaxHistory) history.erase(history.begin())`
loop of `push_history`. -/
def trim_history : List HistoryEntry → List HistoryEntry
  | [] => []
  | e :: rest =>
    if kMaxHistory < (e :: rest).length then trim_history rest
    else e :: rest

/-- `push_history`: append the current page's address, then evict from the
front while over the bound. -/
def push_history (st : BrowserState) : BrowserState :=
  { st with history := trim_history (st.history ++ [page_entry st.current_page]) }

/-- Iterated pushes: set the current page, push, repeat.  Used to state the
"sequence of pushes" part of the history-bound claim. -/
def push_many (st : BrowserState) : List GopherPage → BrowserState
  | [] => st
  | p :: ps => push_many (push_history { st with current_page := p }) ps

/-- The "find first selectable item" loop shared by `navigate_to` and
`go_back`: `selected_index` stays `-1` when no item is selectable. -/
def find_first_selectable : List GopherItem → Int
  | [] => -1
  | it :: rest =>
    if it.is_selectable then 0
    else
      let r := find_first_selectable rest
      if r = -1 then -1 else r + 1

/-- `navigate_to(host, selector, port, expected_type)`.  The blocking
`fetch_gopher` call is abstracted by the `fetch` oracle. -/
def navigate_to (fetch : String → String → Int → String) (st : BrowserState)
    (host selector : String) (port : Int) (expected_type : Char) : BrowserState :=
  let st1 := if st.current_page.host ≠ "" then push_history st else st
  let st2 := { st1 with
    current_page := { st1.current_page with host := host, selector := selector, port := port }
    status_message := "Connecting..."
    is_loading := true }
  let response := fetch host selector port
  let st3 := { st2 with is_loading := false }
  if response = "" then { st3 with status_message := "Failed to load page" }
  else
    let page :=
      if expected_type = GOPHER_TEXT ∨ expected_type = GOPHER_HTML then
        parse_text_file response st3.current_page
      else
        parse_gopher_menu response st3.current_page
    { st3 with
      current_page := page
      scroll_offset := 0
      selected_index := find_first_selectable page.items
      status_message := "" }

/-- `go_back()`: pop the most recent entry, overwrite the page address,
re-fetch, and parse the response as a menu; `false` on empty history or an
empty fetch result. -/
def go_back (fetch : String → String → Int → String) (st : BrowserState) :
    Bool × BrowserState :=
  match st.history.getLast? with
  | none => (false, st)
  | some entry =>
    let st1 := { st with history := st.history.dropLast }
    let st2 := { st1 with
      current_page := { st1.current_page with
        host := entry.host, selector := entry.selector, port := entry.port }
      status_message := "Loading..."
      is_loading := true }
    let response := fetch entry.host entry.selector entry.port
    let st3 := { st2 with is_loading := false }
    if response = "" then (false, { st3 with status_message := "Failed to load page" })
    else
      let page := parse_gopher_menu response st3.current_page
      (true, { st3 with
        current_page := page
        scroll_offset := 0
        selected_index := find_first_selectable page.items
        status_message := "" })

-- ===== Selection movement =====

/-- The main `while (new_index >= 0 && new_index < items_count)` scan of
`move_selection`, stepping by `direction`.  The fuel argument only bounds the
iteration count of the model: for `direction = ±1` the walk stays in range
for at most `items_count` steps, so the fuel passed by `move_selection`
(`items_count + 1`) is never exhausted (for `direction = 0` the C++ loop may
not terminate at all). -/
def scan_from (items : List GopherItem) (direction : Int) : Nat → Int → Option Int
  | 0, _ => none
  | fuel + 1, i =>
    if 0 ≤ i ∧ i < (items.length : Int) then
      if (items.getD i.toNat defaultGopherItem).is_selectable then some i
      else scan_from items direction fuel (i + direction)
    else none

/-- Ascending wrap scan `for (int i = 0; i < ub; i++)`: first selectable
index below `ub` starting at `k`.  (With `ub = selected_index` this is the
forward-wrap loop of `move_selection`; with `ub = items_count` it is an
unbounded ascending scan.) -/
def asc_scan (items : List GopherItem) (ub : Int) (k : Nat) : Option Nat :=
  if (k : Int) < ub then
    if (items.getD k defaultGopherItem).is_selectable then some k
    else asc_scan items ub (k + 1)
  else none
termination_by (ub - (k : Int)).toNat
decreasing_by omega

/-- Descending wrap scan `for (int i = hi; i > lb; i--)`: first selectable
index above `lb` scanning downward from `i`.  (With `lb = selected_index`
this is the backward-wrap loop of `move_selection`; with `lb = -1` it is a
descending scan bounded below by index 0.) -/
def desc_scan (items : List GopherItem) (lb : Int) (i : Int) : Option Int :=
  if lb < i then
    if (items.getD i.toNat defaultGopherItem).is_selectable then some i
    else desc_scan items lb (i - 1)
  else none
termination_by (i - lb).toNat
decreasing_by omega

/-- `move_selection(direction)` (drawing side effects omitted; the scroll
adjustments are kept). -/
def move_selection (st : BrowserState) (direction : Int) : BrowserState :=
  let items := st.current_page.items
  let items_count : Int := items.length
  if items.length = 0 then st
  else
    match scan_from items direction (items.length + 1) (st.selected_index + direction) with
    | some i =>
      let so :=
        if i < st.scroll_offset then i
        else if st.scroll_offset + st.visible_lines ≤ i then i - st.visible_lines + 1
        else st.scroll_offset
      { st with selected_index := i, scroll_offset := so }
    | none =>
      if 0 < direction then
        match asc_scan items st.selected_index 0 with
        | some i => { st with selected_index := (i : Int), scroll_offset := 0 }
        | none => st
      else
        match desc_scan items st.selected_index (items_count - 1) with
        | some i =>
          let so := i - st.visible_lines + 1
          { st with selected_index := i, scroll_offset := if so < 0 then 0 else so }
        | none => st

-- ===== Specification-side definitions =====

/-- The selection-movement rule as the specification words it: move to the
nearest selectable item in the given direction; failing that wrap (upward:
rescan from index 0 up to, but not including, the original index; downward:
rescan from the last index down to, but not including, the original index);
when nothing selectable is found the selection is unchanged. -/
def move_selection_spec (items : List GopherItem) (sel d : Int) : Int :=
  if items.length = 0 then sel
  else if d = 1 then
    match asc_scan items (items.length : Int) (sel + 1).toNat with
    | some k => (k : Int)
    | none =>
      match asc_scan items sel 0 with
      | some k => (k : Int)
      | none => sel
  else
    match desc_scan items (-1) (sel - 1) with
    | some i => i
    | none =>
      match desc_scan items sel ((items.length : Int) - 1) with
      | some i => i
      | none => sel

/-- The selection-index invariant: `-1`, or a valid index of a selectable
item of the current page. -/
def sel_invariant (st : BrowserState) : Prop :=
  st.selected_index = -1 ∨
  (0 ≤ st.selected_index ∧ st.selected_index < (st.current_page.items.length : Int) ∧
    (st.current_page.items.getD st.selected_index.toNat defaultGopherItem).is_selectable = true)

/-- `i` is the first selectable index of `items`, or `-1` when none exists. -/
def is_first_selectable_index (items : List GopherItem) (i : Int) : Prop :=
  (i = -1 ∧ ∀ it ∈ items, it.is_selectable = false) ∨
  (0 ≤ i ∧ i < (items.length : Int) ∧
    (items.getD i.toNat defaultGopherItem).is_selectable = true ∧
    ∀ j : Nat, (j : Int) < i → (items.getD j defaultGopherItem).is_selectable = false)

-- Concrete states used by the witness theorems.

def examplePage : GopherPage :=
  { host := "gopher.floodgap.com", selector := "/", port := 70
    items := [], raw_text := "", is_menu := true }

def exampleState : BrowserState :=
  { current_page := examplePage, history := [], scroll_offset := 0
    selected_index := -1, visible_lines := 10, is_loading := false, status_message := "" }

-- ===== Helper lemmas =====

theorem push_history_only_history (st : BrowserState) :
    (push_history st).current_page = st.current_page ∧
    (push_history st).selected_index = st.selected_index ∧
    (push_history st).scroll_offset = st.scroll_offset ∧
    (push_history st).visible_lines = st.visible_lines := by
  simp [push_history]

example : split "A\tfoo\tex.com\t70" '\t' = ["A", "foo", "ex.com", "70"] := by decide

example : parse_gopher_line "1A\tfoo\tex.com\t70" =
    { type := '1', display := "A", selector := "foo", host := "ex.com", port := 70 } := by decide

example : parse_menu_go "1A\tfoo\tex.com\t70\r\n.\r\n1B\tbar\tex.com\t70\r\n".data "" =
    [{ type := '1', display := "A", selector := "foo", host := "ex.com", port := 70 }] := by decide

example : parse_text_go "a\n\nb\n".data "" = [mkInfoItem "a", mkInfoItem "", mkInfoItem "b"] := by decide

-- ===== C1: navigate with an empty fetch result =====

/-- C1: when the fetch of `navigate_to(host, selector, port, expected_type)`
returns an empty result, the operation reports "Failed to load page" in the
status message and stops; the current page's host, selector and port have
already been overwritten with the requested (unreached) destination, while
the items list, `raw_text`, the `is_menu` flag and the selection index are
unchanged from before the call. -/
theorem navigate_failed_fetch_keeps_content
    (fetch : String → String → Int → String) (st : BrowserState)
    (host selector : String) (port : Int) (expected_type : Char)
    (h : fetch host selector port = "") :
    (navigate_to fetch st host selector port expected_type).status_message = "Failed to load page" ∧
    (navigate_to fetch st host selector port expected_type).current_page.host = host ∧
    (navigate_to fetch st host selector port expected_type).current_page.selector = selector ∧
    (navigate_to fetch st host selector port expected_type).current_page.port = port ∧
    (navigate_to fetch st host selector port expected_type).current_page.items = st.current_page.items ∧
    (navigate_to fetch st host selector port expected_type).current_page.raw_text = st.current_page.raw_text ∧
    (navigate_to fetch st host selector port expected_type).current_page.is_menu = st.current_page.is_menu ∧
    (navigate_to fetch st host selector port expected_type).selected_index = st.selected_index := by
  unfold navigate_to
  rw [h]
  split <;> simp [push_history]

/-- Witness for C1 at a concrete state and an always-empty fetch oracle. -/
theorem navigate_failed_fetch_keeps_content_witness :
    ((fun _ _ _ => "") : String → String → Int → String) "sdf.org" "/" 70 = "" ∧
    ((navigate_to (fun _ _ _ => "") exampleState "sdf.org" "/" 70 GOPHER_MENU).status_message
        = "Failed to load page" ∧
      (navigate_to (fun _ _ _ => "") exampleState "sdf.org" "/" 70 GOPHER_MENU).current_page.host = "sdf.org" ∧
      (navigate_to (fun _ _ _ => "") exampleState "sdf.org" "/" 70 GOPHER_MENU).current_page.selector = "/" ∧
      (navigate_to (fun _ _ _ => "") exampleState "sdf.org" "/" 70 GOPHER_MENU).current_page.port = 70 ∧
      (navigate_to (fun _ _ _ => "") exampleState "sdf.org" "/" 70 GOPHER_MENU).current_page.items
        = exampleState.current_page.items ∧
      (navigate_to (fun _ _ _ => "") exampleState "sdf.org" "/" 70 GOPHER_MENU).current_page.raw_text
        = exampleState.current_page.raw_text ∧
      (navigate_to (fun _ _ _ => "") exampleState "sdf.org" "/" 70 GOPHER_MENU).current_page.is_menu
        = exampleState.current_page.is_menu ∧
      (navigate_to (fun _ _ _ => "") exampleState "sdf.org" "/" 70 GOPHER_MENU).selected_index
        = exampleState.selected_index) :=
  ⟨rfl, navigate_failed_fetch_keeps_content (fun _ _ _ => "") exampleState "sdf.org" "/" 70 GOPHER_MENU rfl⟩

-- ===== C9: go_back with a non-empty history and an empty fetch result =====

/-- C9: when `go_back` pops a non-empty history and the re-fetch of the
popped address returns empty, the popped entry is gone for good (the
remaining history is exactly the stack minus its last entry), `go_back`
returns `false`, the page's host/selector/port are overwritten with the
popped address, and the items, `raw_text` and selection of the previously
displayed page are retained unchanged. -/
theorem go_back_failed_fetch_loses_entry
    (fetch : String → String → Int → String) (st : BrowserState)
    (entry : HistoryEntry) (rest : List HistoryEntry)
    (h1 : st.history = rest ++ [entry])
    (h2 : fetch entry.host entry.selector entry.port = "") :
    go_back fetch st =
      (false,
        { st with
          history := rest
          current_page := { st.current_page with
            host := entry.host, selector := entry.selector, port := entry.port }
          status_message := "Failed to load page"
          is_loading := false }) := by
  unfold go_back
  rw [h1, List.getLast?_concat]
  simp only [h1, h2, List.dropLast_concat]
  simp

/-- Witness for C9: a two-entry history whose popped entry fails to load. -/
theorem go_back_failed_fetch_loses_entry_witness :
    ({ exampleState with history := [⟨"a.org", "/x", 70⟩, ⟨"b.org", "/y", 70⟩] } : BrowserState).history
        = [⟨"a.org", "/x", 70⟩] ++ [⟨"b.org", "/y", 70⟩] ∧
    ((fun _ _ _ => "") : String → String → Int → String)
        (HistoryEntry.host ⟨"b.org", "/y", 70⟩) (HistoryEntry.selector ⟨"b.org", "/y", 70⟩)
        (HistoryEntry.port ⟨"b.org", "/y", 70⟩) = "" ∧
    go_back (fun _ _ _ => "")
        { exampleState with history := [⟨"a.org", "/x", 70⟩, ⟨"b.org", "/y", 70⟩] } =
      (false,
        { ({ exampleState with history := [⟨"a.org", "/x", 70⟩, ⟨"b.org", "/y", 70⟩] } : BrowserState) with
          history := [⟨"a.org", "/x", 70⟩]
          current_page := { ({ exampleState with history := [⟨"a.org", "/x", 70⟩, ⟨"b.org", "/y", 70⟩] } : BrowserState).current_page with
            host := "b.org", selector := "/y", port := 70 }
          status_message := "Failed to load page"
          is_loading := false }) :=
  ⟨rfl, rfl,
    go_back_failed_fetch_loses_entry (fun _ _ _ => "")
      { exampleState with history := [⟨"a.org", "/x", 70⟩, ⟨"b.org", "/y", 70⟩] }
      ⟨"b.org", "/y", 70⟩ [⟨"a.org", "/x", 70⟩] rfl rfl⟩

-- ===== C7: go_back behaviour =====

/-- C7: `go_back()` returns `false` and leaves the state untouched when the
history is empty; otherwise it pops exactly the most recently pushed entry
(LIFO), pushes nothing itself, re-fetches that address, and parses the
response as a menu (so on success the resulting page has `is_menu = true`)
regardless of the page's original kind. -/
theorem go_back_pops_lifo_parses_menu
    (fetch : String → String → Int → String) (st1 st2 : BrowserState)
    (entry : HistoryEntry) (rest : List HistoryEntry)
    (h1 : st1.history = [])
    (h2 : st2.history = rest ++ [entry])
    (h3 : fetch entry.host entry.selector entry.port ≠ "") :
    go_back fetch st1 = (false, st1) ∧
    go_back fetch st2 =
      (true,
        { st2 with
          history := rest
          current_page := parse_gopher_menu (fetch entry.host entry.selector entry.port)
            { st2.current_page with host := entry.host, selector := entry.selector, port := entry.port }
          scroll_offset := 0
          selected_index := find_first_selectable
            (parse_gopher_menu (fetch entry.host entry.selector entry.port)
              { st2.current_page with host := entry.host, selector := entry.selector, port := entry.port }).items
          status_message := ""
          is_loading := false }) ∧
    (parse_gopher_menu (fetch entry.host entry.selector entry.port)
      { st2.current_page with host := entry.host, selector := entry.selector, port := entry.port }).is_menu
      = true := by
  refine ⟨?_, ?_, rfl⟩
  · unfold go_back
    rw [h1]
    rfl
  · unfold go_back
    rw [h2, List.getLast?_concat]
    simp only [h2, List.dropLast_concat]
    rw [if_neg h3]

def fetchMenuEx : String → String → Int → String := fun _ _ _ => "1A\tfoo\tex.com\t70\r\n"

def backStateEx : BrowserState :=
  { exampleState with history := [⟨"b.org", "/y", 70⟩] }

/-- Witness for C7: empty-history state and a one-entry history whose
re-fetch succeeds. -/
theorem go_back_pops_lifo_parses_menu_witness :
    exampleState.history = [] ∧
    backStateEx.history = [] ++ [(⟨"b.org", "/y", 70⟩ : HistoryEntry)] ∧
    fetchMenuEx (HistoryEntry.host ⟨"b.org", "/y", 70⟩) (HistoryEntry.selector ⟨"b.org", "/y", 70⟩)
      (HistoryEntry.port ⟨"b.org", "/y", 70⟩) ≠ "" ∧
    (go_back fetchMenuEx exampleState = (false, exampleState) ∧
      go_back fetchMenuEx backStateEx =
        (true,
          { backStateEx with
            history := []
            current_page := parse_gopher_menu
                (fetchMenuEx (HistoryEntry.host ⟨"b.org", "/y", 70⟩)
                  (HistoryEntry.selector ⟨"b.org", "/y", 70⟩) (HistoryEntry.port ⟨"b.org", "/y", 70⟩))
                { backStateEx.current_page with host := "b.org", selector := "/y", port := 70 }
            scroll_offset := 0
            selected_index := find_first_selectable
              (parse_gopher_menu
                (fetchMenuEx (HistoryEntry.host ⟨"b.org", "/y", 70⟩)
                  (HistoryEntry.selector ⟨"b.org", "/y", 70⟩) (HistoryEntry.port ⟨"b.org", "/y", 70⟩))
                { backStateEx.current_page with host := "b.org", selector := "/y", port := 70 }).items
            status_message := ""
            is_loading := false }) ∧
      (parse_gopher_menu
        (fetchMenuEx (HistoryEntry.host ⟨"b.org", "/y", 70⟩)
          (HistoryEntry.selector ⟨"b.org", "/y", 70⟩) (HistoryEntry.port ⟨"b.org", "/y", 70⟩))
        { backStateEx.current_page with host := "b.org", selector := "/y", port := 70 }).is_menu = true) :=
  ⟨rfl, rfl, by decide,
    go_back_pops_lifo_parses_menu fetchMenuEx exampleState backStateEx
      ⟨"b.org", "/y", 70⟩ [] rfl rfl (by decide)⟩

-- ===== C3: bounded history with FIFO eviction =====

theorem trim_history_drop (h : List HistoryEntry) :
    trim_history h = h.drop (h.length - kMaxHistory) := by
  induction h with
  | nil => rfl
  | cons e rest ih =>
    unfold trim_history
    by_cases hl : kMaxHistory < (e :: rest).length
    · rw [if_pos hl, ih]
      have hd : (e :: rest).length - kMaxHistory = (rest.length - kMaxHistory) + 1 := by
        simp only [List.length_cons] at *
        omega
      rw [hd, List.drop_succ_cons]
    · rw [if_neg hl]
      have hd : (e :: rest).length - kMaxHistory = 0 := by
        simp only [List.length_cons] at *
        omega
      rw [hd, List.drop_zero]

theorem push_history_history (st : BrowserState) :
    (push_history st).history =
      (st.history ++ [page_entry st.current_page]).drop (st.history.length + 1 - kMaxHistory) := by
  simp [push_history, trim_history_drop]

theorem push_history_bound (st : BrowserState) :
    (push_history st).history.length ≤ kMaxHistory := by
  rw [push_history_history, List.length_drop, List.length_append]
  simp only [List.length_singleton]
  omega

theorem push_many_bound (pages : List GopherPage) :
    ∀ st : BrowserState, st.history.length ≤ kMaxHistory →
      (push_many st pages).history.length ≤ kMaxHistory := by
  induction pages with
  | nil => exact fun st h => h
  | cons p ps ih =>
    intro st _
    exact ih _ (push_history_bound _)

theorem push_many_charact (pages : List GopherPage) :
    ∀ st : BrowserState, st.history.length ≤ kMaxHistory →
      st.history.length + pages.length ≤ kMaxHistory + 1 →
      (push_many st pages).history =
        (st.history ++ pages.map page_entry).drop
          (st.history.length + pages.length - kMaxHistory) := by
  induction pages with
  | nil =>
    intro st h1 _
    simp only [push_many, List.map_nil, List.append_nil, List.length_nil, Nat.add_zero]
    have hz : st.history.length - kMaxHistory = 0 := by omega
    rw [hz, List.drop_zero]
  | cons p ps ih =>
    intro st h1 h2
    simp only [List.length_cons] at h2
    show (push_many (push_history { st with current_page := p }) ps).history = _
    by_cases hc : st.history.length + 1 ≤ kMaxHistory
    · have hps : (push_history { st with current_page := p }).history =
          st.history ++ [page_entry p] := by
        rw [push_history_history]
        have : st.history.length + 1 - kMaxHistory = 0 := by omega
        simp [this]
      rw [ih _ (by rw [hps, List.length_append, List.length_singleton]; omega)
            (by rw [hps, List.length_append, List.length_singleton]; omega)]
      rw [hps, List.length_append, List.length_singleton, List.append_assoc]
      simp only [List.map_cons, List.singleton_append, List.length_cons]
      have harith : st.history.length + 1 + ps.length - kMaxHistory =
          st.history.length + (ps.length + 1) - kMaxHistory := by omega
      rw [harith]
    · have h50 : st.history.length = kMaxHistory := by omega
      have hps0 : ps = [] := by
        cases ps with
        | nil => rfl
        | cons q qs => simp only [List.length_cons] at h2; omega
      subst hps0
      show (push_history { st with current_page := p }).history = _
      rw [push_history_history]
      simp only [List.map_cons, List.map_nil, List.length_cons, List.length_nil]

/-- C3: the history stack never exceeds 50 entries under any sequence of
pushes; a push always appends the new entry and evicts from the front
exactly when the bound would be exceeded (FIFO); pushing 51 entries onto an
empty history leaves exactly 50, with the first-pushed entry evicted. -/
theorem history_bounded_fifo
    (st st2 : BrowserState) (pages pages2 : List GopherPage)
    (h1 : st.history.length ≤ kMaxHistory)
    (h2 : st2.history = [])
    (h3 : pages2.length = 51) :
    (push_many st pages).history.length ≤ kMaxHistory ∧
    (push_history st).history =
      (st.history ++ [page_entry st.current_page]).drop (st.history.length + 1 - kMaxHistory) ∧
    (push_many st2 pages2).history = (pages2.map page_entry).drop 1 ∧
    (push_many st2 pages2).history.length = kMaxHistory := by
  have hlen2 : st2.history.length = 0 := by rw [h2]; rfl
  have hch := push_many_charact pages2 st2
    (by rw [hlen2]; exact Nat.zero_le _)
    (by rw [hlen2, h3]; simp [kMaxHistory])
  have hdrop : (push_many st2 pages2).history = (pages2.map page_entry).drop 1 := by
    rw [hch, h2, h3]
    simp [kMaxHistory]
  refine ⟨push_many_bound pages st h1, push_history_history st, hdrop, ?_⟩
  rw [hdrop, List.length_drop, List.length_map, h3]
  simp [kMaxHistory]

def fiftyOnePages : List GopherPage := List.replicate 51 examplePage

/-- Witness for C3: 51 pushes onto an empty history. -/
theorem history_bounded_fifo_witness :
    exampleState.history.length ≤ kMaxHistory ∧
    exampleState.history = [] ∧
    fiftyOnePages.length = 51 ∧
    ((push_many exampleState fiftyOnePages).history.length ≤ kMaxHistory ∧
      (push_history exampleState).history =
        (exampleState.history ++ [page_entry exampleState.current_page]).drop
          (exampleState.history.length + 1 - kMaxHistory) ∧
      (push_many exampleState fiftyOnePages).history = (fiftyOnePages.map page_entry).drop 1 ∧
      (push_many exampleState fiftyOnePages).history.length = kMaxHistory) :=
  ⟨by decide, rfl, by simp [fiftyOnePages],
    history_bounded_fifo exampleState exampleState fiftyOnePages fiftyOnePages
      (by decide) rfl (by simp [fiftyOnePages])⟩

-- ===== Line-level characterisation of the two parsers =====

theorem string_data_append (a b : String) : (a ++ b).data = a.data ++ b.data := rfl

theorem menu_go_lines (cs : List Char) : ∀ l : String,
    parse_menu_go cs l =
      (((to_lines cs l).takeWhile (fun s => s ≠ ".")).filter (fun s => s ≠ "")).map
        parse_gopher_line := by
  induction cs with
  | nil =>
    intro l
    by_cases h0 : l = ""
    · subst h0; simp [parse_menu_go, to_lines]
    · by_cases h1 : l = "."
      · subst h1; simp [parse_menu_go, to_lines]
      · simp [parse_menu_go, to_lines, h0, h1]
  | cons c cs ih =>
    intro l
    by_cases hc : c = '\n'
    · subst hc
      by_cases h1 : stripCR l = "."
      · simp [parse_menu_go, to_lines, h1]
      · by_cases h0 : stripCR l = ""
        · simp [parse_menu_go, to_lines, h0, h1, ih]
        · simp [parse_menu_go, to_lines, h0, h1, ih]
    · simp [parse_menu_go, to_lines, hc, ih]

theorem text_go_lines (cs : List Char) : ∀ l : String,
    parse_text_go cs l =
      ((to_lines cs l).takeWhile (fun s => s ≠ ".")).map mkInfoItem := by
  induction cs with
  | nil =>
    intro l
    by_cases h0 : l = ""
    · subst h0; simp [parse_text_go, to_lines]
    · by_cases h1 : l = "."
      · subst h1; simp [parse_text_go, to_lines]
      · simp [parse_text_go, to_lines, h0, h1]
  | cons c cs ih =>
    intro l
    by_cases hc : c = '\n'
    · subst hc
      by_cases h1 : stripCR l = "."
      · simp [parse_text_go, to_lines, h1]
      · simp [parse_text_go, to_lines, h1, ih]
    · simp [parse_text_go, to_lines, hc, ih]

-- ===== C4: blank lines skipped by the menu parser, kept by the text parser =====

/-- C4: `parse_gopher_menu` yields one item per non-blank, non-terminator
line, in encounter order (blank lines produce no item), while
`parse_text_file` yields one Info item for every line before the terminator,
blank lines included, carrying the line's exact text. -/
theorem menu_skips_blanks_text_keeps_blanks (response : String) (page : GopherPage) :
    (parse_gopher_menu response page).items =
      (((to_lines response.data "").takeWhile (fun s => s ≠ ".")).filter
        (fun s => s ≠ "")).map parse_gopher_line ∧
    (parse_text_file response page).items.map (fun it => (it.type, it.display)) =
      ((to_lines response.data "").takeWhile (fun s => s ≠ ".")).map
        (fun s => (GOPHER_INFO, s)) := by
  constructor
  · simp [parse_gopher_menu, menu_go_lines]
  · simp [parse_text_file, text_go_lines, mkInfoItem, Function.comp]

-- ===== C5: the "." terminator stops both parsers =====

theorem to_lines_cons_nl (cs : List Char) (l : String) :
    to_lines ('\n' :: cs) l = stripCR l :: to_lines cs "" := rfl

theorem to_lines_cons_ne (c : Char) (cs : List Char) (l : String) (hc : c ≠ '\n') :
    to_lines (c :: cs) l = to_lines cs (l.push c) := by
  simp [to_lines, hc]

theorem to_lines_append (cs₂ : List Char) :
    ∀ (cs₁ : List Char) (l : String),
      ((cs₁ = [] ∧ l = "") ∨ cs₁.getLast? = some '\n') →
      to_lines (cs₁ ++ cs₂) l = to_lines cs₁ l ++ to_lines cs₂ "" := by
  intro cs₁
  induction cs₁ with
  | nil =>
    intro l h
    rcases h with ⟨_, hl⟩ | hlast
    · subst hl; simp [to_lines]
    · simp at hlast
  | cons c cs ih =>
    intro l h
    have hlast : (c :: cs).getLast? = some '\n' := by
      rcases h with ⟨hne, _⟩ | hl
      · exact absurd hne (by simp)
      · exact hl
    by_cases hc : c = '\n'
    · subst hc
      cases cs with
      | nil => simp [to_lines_cons_nl, to_lines]
      | cons d ds =>
        rw [List.getLast?_cons_cons] at hlast
        rw [List.cons_append, to_lines_cons_nl, to_lines_cons_nl,
          ih "" (Or.inr hlast), List.cons_append]
    · have hcs : cs ≠ [] := by
        intro hnil
        subst hnil
        rw [List.getLast?_singleton] at hlast
        exact hc (Option.some.inj hlast)
      have htail : cs.getLast? = some '\n' := by
        cases cs with
        | nil => exact absurd rfl hcs
        | cons d ds => rw [List.getLast?_cons_cons] at hlast; exact hlast
      rw [List.cons_append, to_lines_cons_ne c (cs ++ cs₂) l hc,
        to_lines_cons_ne c cs l hc]
      exact ih (l.push c) (Or.inr htail)

theorem takeWhile_stop (p : String → Bool) (hp : p "." = false) (A B : List String) :
    (A ++ "." :: B).takeWhile p = A.takeWhile p := by
  induction A with
  | nil => simp [List.takeWhile_cons, hp]
  | cons a A ih =>
    rw [List.cons_append, List.takeWhile_cons, List.takeWhile_cons, ih]

theorem to_lines_dot_nl (cs : List Char) : to_lines ('.' :: '\n' :: cs) "" = "." :: to_lines cs "" := rfl

theorem to_lines_dot_cr_nl (cs : List Char) :
    to_lines ('.' :: '\r' :: '\n' :: cs) "" = "." :: to_lines cs "" := rfl

/-- C5: a line that is exactly `"."` (after one trailing CR is stripped)
stops both parsers: everything after it contributes no item, so the items
equal those of the prefix alone; in particular the response
`"1A\tfoo\tex.com\t70\r\n.\r\n1B\tbar\tex.com\t70\r\n"` parses to exactly
one menu item. -/
theorem parsers_stop_at_terminator (pre suf : String) (page : GopherPage)
    (h : pre = "" ∨ pre.data.getLast? = some '\n') :
    (parse_gopher_menu (pre ++ ".\n" ++ suf) page).items = (parse_gopher_menu pre page).items ∧
    (parse_gopher_menu (pre ++ ".\r\n" ++ suf) page).items = (parse_gopher_menu pre page).items ∧
    (parse_text_file (pre ++ ".\n" ++ suf) page).items = (parse_text_file pre page).items ∧
    (parse_text_file (pre ++ ".\r\n" ++ suf) page).items = (parse_text_file pre page).items ∧
    (parse_gopher_menu "1A\tfoo\tex.com\t70\r\n.\r\n1B\tbar\tex.com\t70\r\n" page).items =
      [{ type := '1', display := "A", selector := "foo", host := "ex.com", port := 70 }] := by
  have hd : (pre.data = [] ∧ ("" : String) = "") ∨ pre.data.getLast? = some '\n' := by
    rcases h with h | h
    · left
      constructor
      · rw [h]
      · rfl
    · right; exact h
  have hnl : to_lines (pre ++ ".\n" ++ suf).data "" =
      to_lines pre.data "" ++ ("." :: to_lines suf.data "") := by
    rw [string_data_append, string_data_append]
    have : (".\n" : String).data = ['.', '\n'] := rfl
    rw [this, List.append_assoc]
    rw [to_lines_append _ pre.data "" hd]
    rfl
  have hcrnl : to_lines (pre ++ ".\r\n" ++ suf).data "" =
      to_lines pre.data "" ++ ("." :: to_lines suf.data "") := by
    rw [string_data_append, string_data_append]
    have : (".\r\n" : String).data = ['.', '\r', '\n'] := rfl
    rw [this, List.append_assoc]
    rw [to_lines_append _ pre.data "" hd]
    rfl
  have htw := takeWhile_stop (fun s => decide (s ≠ ".")) (by decide)
  refine ⟨?_, ?_, ?_, ?_, by simp only [parse_gopher_menu]; decide⟩
  · simp only [parse_gopher_menu, menu_go_lines, hnl, htw]
  · simp only [parse_gopher_menu, menu_go_lines, hcrnl, htw]
  · simp only [parse_text_file, text_go_lines, hnl, htw]
  · simp only [parse_text_file, text_go_lines, hcrnl, htw]

/-- Witness for C5 at a concrete prefix, suffix and page. -/
theorem parsers_stop_at_terminator_witness :
    (("1X\tx\tex.com\t70\n" : String) = "" ∨ ("1X\tx\tex.com\t70\n" : String).data.getLast? = some '\n') ∧
    ((parse_gopher_menu ("1X\tx\tex.com\t70\n" ++ ".\n" ++ "1Y\ty\tex.com\t70\n") examplePage).items =
        (parse_gopher_menu "1X\tx\tex.com\t70\n" examplePage).items ∧
      (parse_gopher_menu ("1X\tx\tex.com\t70\n" ++ ".\r\n" ++ "1Y\ty\tex.com\t70\n") examplePage).items =
        (parse_gopher_menu "1X\tx\tex.com\t70\n" examplePage).items ∧
      (parse_text_file ("1X\tx\tex.com\t70\n" ++ ".\n" ++ "1Y\ty\tex.com\t70\n") examplePage).items =
        (parse_text_file "1X\tx\tex.com\t70\n" examplePage).items ∧
      (parse_text_file ("1X\tx\tex.com\t70\n" ++ ".\r\n" ++ "1Y\ty\tex.com\t70\n") examplePage).items =
        (parse_text_file "1X\tx\tex.com\t70\n" examplePage).items ∧
      (parse_gopher_menu "1A\tfoo\tex.com\t70\r\n.\r\n1B\tbar\tex.com\t70\r\n" examplePage).items =
        [{ type := '1', display := "A", selector := "foo", host := "ex.com", port := 70 }]) :=
  ⟨Or.inr (by decide),
    parsers_stop_at_terminator "1X\tx\tex.com\t70\n" "1Y\ty\tex.com\t70\n" examplePage
      (Or.inr (by decide))⟩

-- ===== C6: flushing of the final unterminated line =====

/-- Counterexample to C6 as stated: the end-of-input flush skips the CR
strip, so a final line `"ihello\r"` with no trailing newline is parsed with
the CR still in it, unlike the newline-terminated `"ihello\r\n"`. -/
theorem final_line_cr_not_stripped_cex :
    (parse_gopher_menu "ihello\r" examplePage).items ≠
      (parse_gopher_menu "ihello\r\n" examplePage).items := by decide

theorem to_lines_flush (cs : List Char) : ∀ l : String,
    pending cs l ≠ "" →
    (pending cs l).data.getLast? ≠ some '\r' →
    to_lines (cs ++ ['\n']) l = to_lines cs l := by
  induction cs with
  | nil =>
    intro l h1 h2
    have hs : stripCR l = l := by
      unfold stripCR
      rw [if_neg]
      exact h2
    simp only [List.nil_append, to_lines_cons_nl, hs]
    simp [to_lines, pending] at h1 ⊢
    rw [if_neg h1]
  | cons c cs ih =>
    intro l h1 h2
    by_cases hc : c = '\n'
    · subst hc
      simp only [pending, if_pos rfl] at h1 h2
      rw [List.cons_append, to_lines_cons_nl, to_lines_cons_nl, ih "" h1 h2]
    · simp only [pending, if_neg hc] at h1 h2
      rw [List.cons_append, to_lines_cons_ne c (cs ++ ['\n']) l hc,
        to_lines_cons_ne c cs l hc]
      exact ih (l.push c) h1 h2

/-- C6 amended: both parsers flush the pending final line at end of input
under the same blank-line handling and terminator check as a
newline-terminated line, but WITHOUT stripping a trailing CR.  Hence for
every response whose (non-empty) final unterminated line does not end in a
CR, the parsed items coincide with those of the newline-terminated input. -/
theorem final_line_flush_no_cr_strip (s : String) (page : GopherPage)
    (h1 : pending s.data "" ≠ "")
    (h2 : (pending s.data "").data.getLast? ≠ some '\r') :
    (parse_gopher_menu (s ++ "\n") page).items = (parse_gopher_menu s page).items ∧
    (parse_text_file (s ++ "\n") page).items = (parse_text_file s page).items := by
  have hdata : (s ++ "\n").data = s.data ++ ['\n'] := by
    rw [string_data_append]
  have hfl := to_lines_flush s.data "" h1 h2
  constructor
  · simp only [parse_gopher_menu, menu_go_lines, hdata, hfl]
  · simp only [parse_text_file, text_go_lines, hdata, hfl]

/-- Witness for the amended C6 at a concrete unterminated response. -/
theorem final_line_flush_no_cr_strip_witness :
    pending ("ia" : String).data "" ≠ "" ∧
    (pending ("ia" : String).data "").data.getLast? ≠ some '\r' ∧
    ((parse_gopher_menu ("ia" ++ "\n") examplePage).items =
        (parse_gopher_menu "ia" examplePage).items ∧
      (parse_text_file ("ia" ++ "\n") examplePage).items =
        (parse_text_file "ia" examplePage).items) :=
  ⟨by decide, by decide, final_line_flush_no_cr_strip "ia" examplePage (by decide) (by decide)⟩

-- ===== C2: the 512 KiB response cap =====

theorem string_length_mk (l : List Char) : (String.mk l).length = l.length := rfl

theorem string_length_append (a b : String) : (a ++ b).length = a.length + b.length := by
  cases a with
  | mk da =>
    cases b with
    | mk db => exact List.length_append da db

theorem cstr_no_nul (c : String) (h : Char.ofNat 0 ∉ c.data) : cstr c = c := by
  unfold cstr
  have hall : c.data.takeWhile (fun x => decide (x ≠ Char.ofNat 0)) = c.data :=
    List.takeWhile_eq_self_iff.mpr (fun x hx => by
      simp only [ne_eq, decide_eq_true_eq]
      intro he
      exact h (he ▸ hx))
  rw [hall]

theorem recv_loop_length (chunks : List String) : ∀ acc : String,
    (∀ c ∈ chunks, Char.ofNat 0 ∉ c.data) →
    (recv_loop chunks acc).length = recv_len (chunks.map String.length) acc.length := by
  induction chunks with
  | nil =>
    intro acc _
    rfl
  | cons c cs ih =>
    intro acc h
    have hc : cstr c = c := cstr_no_nul c (h c (by simp))
    have key : recv_loop (c :: cs) acc =
        if kMaxResponseSize < (acc ++ c).length then acc ++ c
        else recv_loop cs (acc ++ c) := by
      simp only [recv_loop, hc]
    have key2 : recv_len ((c :: cs).map String.length) acc.length =
        if kMaxResponseSize < acc.length + c.length then acc.length + c.length
        else recv_len (cs.map String.length) (acc.length + c.length) := by
      simp only [recv_len, List.map_cons]
    rw [key, key2]
    have hlen := string_length_append acc c
    by_cases hcap : kMaxResponseSize < acc.length + c.length
    · rw [if_pos (by rw [hlen]; exact hcap), if_pos hcap]
      exact hlen
    · rw [if_neg (by rw [hlen]; exact hcap), if_neg hcap]
      rw [ih (acc ++ c) (fun x hx => h x (List.mem_cons_of_mem c hx)), hlen]

theorem recv_loop_bounds (chunks : List String) : ∀ acc : String,
    (∀ c ∈ chunks, c.length ≤ kRecvChunkSize ∧ Char.ofNat 0 ∉ c.data) →
    acc.length ≤ kMaxResponseSize →
    kMaxResponseSize < acc.length + (chunks.map String.length).sum →
    (kMaxResponseSize < (recv_loop chunks acc).length ∧
      (recv_loop chunks acc).length ≤ kMaxResponseSize + kRecvChunkSize ∧
      ∀ extra, recv_loop (chunks ++ extra) acc = recv_loop chunks acc) := by
  induction chunks with
  | nil =>
    intro acc _ hacc htot
    exfalso
    simp only [List.map_nil, List.sum_nil, Nat.add_zero] at htot
    omega
  | cons c cs ih =>
    intro acc h hacc htot
    obtain ⟨hle, hnul⟩ := h c (by simp)
    have hc : cstr c = c := cstr_no_nul c hnul
    have key : ∀ rest, recv_loop (c :: rest) acc =
        if kMaxResponseSize < (acc ++ c).length then acc ++ c
        else recv_loop rest (acc ++ c) := by
      intro rest
      simp only [recv_loop, hc]
    have hlen := string_length_append acc c
    by_cases hcap : kMaxResponseSize < (acc ++ c).length
    · refine ⟨?_, ?_, ?_⟩
      · rw [key cs, if_pos hcap]
        exact hcap
      · rw [key cs, if_pos hcap, hlen]
        omega
      · intro extra
        rw [List.cons_append, key (cs ++ extra), if_pos hcap, key cs, if_pos hcap]
    · have hacc2 : (acc ++ c).length ≤ kMaxResponseSize := by omega
      have htot2 : kMaxResponseSize < (acc ++ c).length + (cs.map String.length).sum := by
        rw [hlen]
        simp only [List.map_cons, List.sum_cons] at htot
        omega
      obtain ⟨b1, b2, b3⟩ :=
        ih (acc ++ c) (fun x hx => h x (List.mem_cons_of_mem c hx)) hacc2 htot2
      refine ⟨?_, ?_, ?_⟩
      · rw [key cs, if_neg hcap]
        exact b1
      · rw [key cs, if_neg hcap]
        exact b2
      · intro extra
        rw [List.cons_append, key (cs ++ extra), if_neg hcap, key cs, if_neg hcap]
        exact b3 extra

def cexChunk : String := String.mk (List.replicate kRecvChunkSize 'a')

def cexChunks : List String := List.replicate 129 cexChunk

set_option maxRecDepth 8000 in
/-- Counterexample to C2 as stated: a stream of 129 full 4095-byte chunks
totals 528255 bytes (> 512 KiB); `fetch`'s receive loop returns all 528255
collected bytes — 3967 more than the 512 KiB cap — not exactly the cap's
worth. -/
theorem fetch_cap_cex :
    kMaxResponseSize < (cexChunks.map String.length).sum ∧
    (recv_loop cexChunks "").length ≠ kMaxResponseSize ∧
    (recv_loop cexChunks "").length = kMaxResponseSize + 3967 := by
  have hlenc : cexChunk.length = kRecvChunkSize := by
    rw [cexChunk, string_length_mk, List.length_replicate]
  have hmap : cexChunks.map String.length = List.replicate 129 kRecvChunkSize := by
    rw [cexChunks, List.map_replicate, hlenc]
  have hnul : ∀ c ∈ cexChunks, Char.ofNat 0 ∉ c.data := by
    intro c hcmem
    have hce : c = cexChunk := List.eq_of_mem_replicate hcmem
    subst hce
    intro hmem
    exact absurd (List.eq_of_mem_replicate hmem) (by decide)
  have hlenloop : (recv_loop cexChunks "").length = recv_len (cexChunks.map String.length) 0 :=
    recv_loop_length cexChunks "" hnul
  refine ⟨by rw [hmap]; decide, ?_, ?_⟩
  · rw [hlenloop, hmap]
    decide
  · rw [hlenloop, hmap]
    decide

/-- C2 amended: when the stream exceeds 512 KiB, reading stops with the
chunk that crosses the cap (later chunks are never read) and `fetch` returns
all bytes collected so far: more than the cap, by at most one chunk (4095
bytes) — never exactly the cap's worth — and no error is raised. -/
theorem fetch_cap_overshoot (chunks : List String)
    (hchunk : ∀ c ∈ chunks, c.length ≤ kRecvChunkSize)
    (hnul : ∀ c ∈ chunks, Char.ofNat 0 ∉ c.data)
    (htot : kMaxResponseSize < (chunks.map String.length).sum) :
    kMaxResponseSize < (recv_loop chunks "").length ∧
    (recv_loop chunks "").length ≤ kMaxResponseSize + kRecvChunkSize ∧
    ∀ extra, recv_loop (chunks ++ extra) "" = recv_loop chunks "" := by
  refine recv_loop_bounds chunks "" (fun c hc => ⟨hchunk c hc, hnul c hc⟩) (by decide) ?_
  simpa using htot

set_option maxRecDepth 8000 in
/-- Witness for the amended C2 at the concrete 129-chunk stream. -/
theorem fetch_cap_overshoot_witness :
    (∀ c ∈ cexChunks, c.length ≤ kRecvChunkSize) ∧
    (∀ c ∈ cexChunks, Char.ofNat 0 ∉ c.data) ∧
    kMaxResponseSize < (cexChunks.map String.length).sum ∧
    (kMaxResponseSize < (recv_loop cexChunks "").length ∧
      (recv_loop cexChunks "").length ≤ kMaxResponseSize + kRecvChunkSize ∧
      ∀ extra, recv_loop (cexChunks ++ extra) "" = recv_loop cexChunks "") := by
  have hchunk : ∀ c ∈ cexChunks, c.length ≤ kRecvChunkSize := by
    intro c hcmem
    have hce : c = cexChunk := List.eq_of_mem_replicate hcmem
    subst hce
    rw [cexChunk, string_length_mk, List.length_replicate]
  have hnul : ∀ c ∈ cexChunks, Char.ofNat 0 ∉ c.data := by
    intro c hcmem
    have hce : c = cexChunk := List.eq_of_mem_replicate hcmem
    subst hce
    intro hmem
    exact absurd (List.eq_of_mem_replicate hmem) (by decide)
  have htot : kMaxResponseSize < (cexChunks.map String.length).sum := by
    have hlenc : cexChunk.length = kRecvChunkSize := by
      rw [cexChunk, string_length_mk, List.length_replicate]
    rw [cexChunks, List.map_replicate, hlenc]
    decide
  exact ⟨hchunk, hnul, htot, fetch_cap_overshoot cexChunks hchunk hnul htot⟩

-- ===== Scanning lemmas for move_selection =====

theorem default_not_selectable : defaultGopherItem.is_selectable = false := by decide

theorem scan_from_some (items : List GopherItem) (d : Int) : ∀ (fuel : Nat) (i j : Int),
    scan_from items d fuel i = some j →
    0 ≤ j ∧ j < (items.length : Int) ∧
      (items.getD j.toNat defaultGopherItem).is_selectable = true := by
  intro fuel
  induction fuel with
  | zero =>
    intro i j h
    exact absurd h (by simp [scan_from])
  | succ fuel ih =>
    intro i j h
    rw [scan_from] at h
    by_cases hr : 0 ≤ i ∧ i < (items.length : Int)
    · rw [if_pos hr] at h
      by_cases hsel : (items.getD i.toNat defaultGopherItem).is_selectable = true
      · rw [if_pos hsel] at h
        cases h
        exact ⟨hr.1, hr.2, hsel⟩
      · rw [if_neg hsel] at h
        exact ih _ _ h
    · rw [if_neg hr] at h
      exact absurd h (by simp)

theorem asc_scan_some (items : List GopherItem) (ub : Int) : ∀ (k j : Nat),
    asc_scan items ub k = some j →
    (j : Int) < ub ∧ j < items.length ∧
      (items.getD j defaultGopherItem).is_selectable = true := by
  intro k
  induction k using asc_scan.induct items ub with
  | case1 k hk hsel =>
    intro j h
    rw [asc_scan, if_pos hk, if_pos hsel] at h
    cases h
    refine ⟨hk, ?_, hsel⟩
    by_contra hlen
    push_neg at hlen
    rw [List.getD_eq_default _ _ hlen] at hsel
    exact absurd hsel (by decide)
  | case2 k hk hsel ih =>
    intro j h
    rw [asc_scan, if_pos hk, if_neg hsel] at h
    exact ih j h
  | case3 k hk =>
    intro j h
    rw [asc_scan, if_neg hk] at h
    exact absurd h (by simp)

theorem desc_scan_some (items : List GopherItem) (lb : Int) : ∀ (i j : Int),
    desc_scan items lb i = some j →
    lb < j ∧ j.toNat < items.length ∧
      (items.getD j.toNat defaultGopherItem).is_selectable = true := by
  intro i
  induction i using desc_scan.induct items lb with
  | case1 i hi hsel =>
    intro j h
    rw [desc_scan, if_pos hi, if_pos hsel] at h
    cases h
    refine ⟨hi, ?_, hsel⟩
    by_contra hlen
    push_neg at hlen
    rw [List.getD_eq_default _ _ hlen] at hsel
    exact absurd hsel (by decide)
  | case2 i hi hsel ih =>
    intro j h
    rw [desc_scan, if_pos hi, if_neg hsel] at h
    exact ih j h
  | case3 i hi =>
    intro j h
    rw [desc_scan, if_neg hi] at h
    exact absurd h (by simp)

theorem asc_scan_none_of_all (items : List GopherItem)
    (hall : ∀ it ∈ items, it.is_selectable = false) (ub : Int) (k : Nat) :
    asc_scan items ub k = none := by
  cases h : asc_scan items ub k with
  | none => rfl
  | some j =>
    obtain ⟨_, hj, hsel⟩ := asc_scan_some items ub k j h
    have hmem : items.getD j defaultGopherItem ∈ items := by
      rw [List.getD_eq_getElem _ _ hj]
      exact List.getElem_mem hj
    rw [hall _ hmem] at hsel
    exact absurd hsel (by simp)

theorem desc_scan_none_of_all (items : List GopherItem)
    (hall : ∀ it ∈ items, it.is_selectable = false) (lb i : Int) :
    desc_scan items lb i = none := by
  cases h : desc_scan items lb i with
  | none => rfl
  | some j =>
    obtain ⟨_, hj, hsel⟩ := desc_scan_some items lb i j h
    have hmem : items.getD j.toNat defaultGopherItem ∈ items := by
      rw [List.getD_eq_getElem _ _ hj]
      exact List.getElem_mem hj
    rw [hall _ hmem] at hsel
    exact absurd hsel (by simp)

theorem scan_from_eq_asc (items : List GopherItem) : ∀ (fuel k : Nat),
    items.length ≤ k + fuel →
    scan_from items 1 fuel (k : Int) =
      (asc_scan items (items.length : Int) k).map (fun j : Nat => (j : Int)) := by
  intro fuel
  induction fuel with
  | zero =>
    intro k hk
    rw [asc_scan, if_neg (by exact_mod_cast Nat.not_lt.mpr (by omega))]
    simp [scan_from]
  | succ fuel ih =>
    intro k hk
    by_cases hkn : k < items.length
    · have hklt : (k : Int) < (items.length : Int) := by exact_mod_cast hkn
      have hr : 0 ≤ (k : Int) ∧ (k : Int) < (items.length : Int) :=
        ⟨Int.natCast_nonneg k, hklt⟩
      rw [scan_from, if_pos hr, Int.toNat_natCast, asc_scan, if_pos hklt]
      by_cases hsel : (items.getD k defaultGopherItem).is_selectable = true
      · rw [if_pos hsel, if_pos hsel]
        rfl
      · rw [if_neg hsel, if_neg hsel]
        have hc : (k : Int) + 1 = ((k + 1 : Nat) : Int) := by push_cast; ring
        rw [hc]
        exact ih (k + 1) (by omega)
    · have h1 : ¬ (0 ≤ (k : Int) ∧ (k : Int) < (items.length : Int)) := by
        rintro ⟨_, hlt⟩
        exact hkn (by exact_mod_cast hlt)
      rw [scan_from, if_neg h1, asc_scan,
        if_neg (fun hlt => hkn (by exact_mod_cast hlt))]
      rfl

theorem scan_from_eq_desc (items : List GopherItem) : ∀ (fuel : Nat) (i : Int),
    i < (fuel : Int) → i < (items.length : Int) →
    scan_from items (-1) fuel i = desc_scan items (-1) i := by
  intro fuel
  induction fuel with
  | zero =>
    intro i hf _
    rw [desc_scan, if_neg (by omega)]
    simp [scan_from]
  | succ fuel ih =>
    intro i hf hn
    by_cases h0 : 0 ≤ i
    · have hr : 0 ≤ i ∧ i < (items.length : Int) := ⟨h0, hn⟩
      rw [scan_from, if_pos hr, desc_scan, if_pos (by omega : (-1 : Int) < i)]
      by_cases hsel : (items.getD i.toNat defaultGopherItem).is_selectable = true
      · rw [if_pos hsel, if_pos hsel]
      · rw [if_neg hsel, if_neg hsel]
        exact ih (i - 1) (by push_cast at hf ⊢; omega) (by omega)
    · rw [scan_from, if_neg (fun hr => h0 hr.1), desc_scan, if_neg (by omega)]

theorem move_selection_selected (st : BrowserState) (d : Int)
    (hnil : ¬ st.current_page.items.length = 0) :
    (move_selection st d).selected_index =
      (match scan_from st.current_page.items d (st.current_page.items.length + 1)
          (st.selected_index + d) with
       | some i => i
       | none =>
         if 0 < d then
           match asc_scan st.current_page.items st.selected_index 0 with
           | some i => (i : Int)
           | none => st.selected_index
         else
           match desc_scan st.current_page.items st.selected_index
               ((st.current_page.items.length : Int) - 1) with
           | some i => i
           | none => st.selected_index) := by
  simp only [move_selection]
  rw [if_neg hnil]
  cases hsf : scan_from st.current_page.items d (st.current_page.items.length + 1)
      (st.selected_index + d) with
  | some i => rfl
  | none =>
    by_cases h0 : 0 < d
    · rw [if_pos h0, if_pos h0]
      cases asc_scan st.current_page.items st.selected_index 0 with
      | some i => rfl
      | none => rfl
    · rw [if_neg h0, if_neg h0]
      cases desc_scan st.current_page.items st.selected_index
          ((st.current_page.items.length : Int) - 1) with
      | some i => rfl
      | none => rfl

theorem move_selection_frame (st : BrowserState) (d : Int) :
    (move_selection st d).current_page = st.current_page ∧
    (move_selection st d).history = st.history := by
  simp only [move_selection]
  repeat' split
  all_goals exact ⟨rfl, rfl⟩

theorem move_spec_unchanged_of_none (items : List GopherItem) (sel d : Int)
    (hall : ∀ it ∈ items, it.is_selectable = false) :
    move_selection_spec items sel d = sel := by
  have hasc : ∀ ub k, asc_scan items ub k = none :=
    fun ub k => asc_scan_none_of_all items hall ub k
  have hdesc : ∀ lb i, desc_scan items lb i = none :=
    fun lb i => desc_scan_none_of_all items hall lb i
  simp only [move_selection_spec]
  by_cases hnil : items.length = 0
  · rw [if_pos hnil]
  · rw [if_neg hnil]
    by_cases hd : d = 1
    · rw [if_pos hd, hasc, hasc]
    · rw [if_neg hd, hdesc, hdesc]

-- ===== C8: selection movement =====

/-- C8: with the selection index in range (`-1` for none), `moveSelection`
with direction `+1` or `-1` moves the selection to the nearest selectable
item in that direction, wrapping (for `+1` rescanning from index 0 up to,
but not including, the original index; for `-1` from the last index down to,
but not including, the original index) when the directional scan exhausts;
when no selectable item exists, or the page has no items, the selection is
unchanged.  The page content and the history are never touched. -/
theorem move_selection_matches_spec (st : BrowserState) (d : Int)
    (hd : d = 1 ∨ d = -1)
    (hlo : -1 ≤ st.selected_index)
    (hhi : st.selected_index < (st.current_page.items.length : Int)) :
    (move_selection st d).selected_index =
      move_selection_spec st.current_page.items st.selected_index d ∧
    (move_selection st d).current_page = st.current_page ∧
    (move_selection st d).history = st.history ∧
    (st.current_page.items = [] → move_selection st d = st) ∧
    ((∀ it ∈ st.current_page.items, it.is_selectable = false) →
      (move_selection st d).selected_index = st.selected_index) := by
  by_cases hnil : st.current_page.items.length = 0
  · have hm : move_selection st d = st := by
      simp only [move_selection]
      rw [if_pos hnil]
    have hs : move_selection_spec st.current_page.items st.selected_index d
        = st.selected_index := by
      simp only [move_selection_spec]
      rw [if_pos hnil]
    rw [hm, hs]
    exact ⟨rfl, rfl, rfl, fun _ => rfl, fun _ => rfl⟩
  · have hsel_eq : (move_selection st d).selected_index =
        move_selection_spec st.current_page.items st.selected_index d := by
      rcases hd with rfl | rfl
      · have hcast : ((st.selected_index + 1).toNat : Int) = st.selected_index + 1 :=
          Int.toNat_of_nonneg (by omega)
        have hscan : scan_from st.current_page.items 1
            (st.current_page.items.length + 1) (st.selected_index + 1) =
            (asc_scan st.current_page.items (st.current_page.items.length : Int)
              (st.selected_index + 1).toNat).map (fun j : Nat => (j : Int)) := by
          have h := scan_from_eq_asc st.current_page.items
            (st.current_page.items.length + 1) (st.selected_index + 1).toNat (by omega)
          rw [hcast] at h
          exact h
        rw [move_selection_selected st 1 hnil, hscan]
        simp only [move_selection_spec]
        rw [if_neg hnil]
        simp only [reduceIte]
        cases asc_scan st.current_page.items (st.current_page.items.length : Int)
            (st.selected_index + 1).toNat with
        | some j => rfl
        | none => rfl
      · have hsub : st.selected_index + (-1) = st.selected_index - 1 := by ring
        have hscan : scan_from st.current_page.items (-1)
            (st.current_page.items.length + 1) (st.selected_index - 1) =
            desc_scan st.current_page.items (-1) (st.selected_index - 1) :=
          scan_from_eq_desc st.current_page.items (st.current_page.items.length + 1)
            (st.selected_index - 1) (by push_cast; omega) (by omega)
        rw [move_selection_selected st (-1) hnil, hsub, hscan]
        simp only [move_selection_spec]
        rw [if_neg hnil]
        cases desc_scan st.current_page.items (-1) (st.selected_index - 1) with
        | some j => rfl
        | none => rfl
    refine ⟨hsel_eq, (move_selection_frame st d).1, (move_selection_frame st d).2, ?_, ?_⟩
    · intro h
      refine absurd ?_ hnil
      rw [h]
      rfl
    · intro hall
      rw [hsel_eq]
      exact move_spec_unchanged_of_none st.current_page.items st.selected_index d hall

def moveStateEx : BrowserState :=
  { exampleState with
    current_page := { examplePage with items :=
      [mkInfoItem "info1",
       { type := '1', display := "A", selector := "/a", host := "ex.com", port := 70 },
       mkInfoItem "info2",
       { type := '1', display := "B", selector := "/b", host := "ex.com", port := 70 }] }
    selected_index := 1 }

/-- Witness for C8: items `[Info, Selectable A, Info, Selectable B]` with
the selection on A, moving forward. -/
theorem move_selection_matches_spec_witness :
    ((1 : Int) = 1 ∨ (1 : Int) = -1) ∧
    -1 ≤ moveStateEx.selected_index ∧
    moveStateEx.selected_index < (moveStateEx.current_page.items.length : Int) ∧
    ((move_selection moveStateEx 1).selected_index =
        move_selection_spec moveStateEx.current_page.items moveStateEx.selected_index 1 ∧
      (move_selection moveStateEx 1).current_page = moveStateEx.current_page ∧
      (move_selection moveStateEx 1).history = moveStateEx.history ∧
      (moveStateEx.current_page.items = [] → move_selection moveStateEx 1 = moveStateEx) ∧
      ((∀ it ∈ moveStateEx.current_page.items, it.is_selectable = false) →
        (move_selection moveStateEx 1).selected_index = moveStateEx.selected_index)) :=
  ⟨Or.inl rfl, by decide, by decide,
    move_selection_matches_spec moveStateEx 1 (Or.inl rfl) (by decide) (by decide)⟩

-- ===== C10: the selection-index invariant =====

theorem find_first_selectable_spec (items : List GopherItem) :
    is_first_selectable_index items (find_first_selectable items) := by
  induction items with
  | nil =>
    left
    exact ⟨rfl, by simp⟩
  | cons it rest ih =>
    by_cases hsel : it.is_selectable = true
    · right
      have h0 : find_first_selectable (it :: rest) = 0 := by
        simp [find_first_selectable, hsel]
      rw [h0]
      refine ⟨le_refl 0, ?_, ?_, ?_⟩
      · exact_mod_cast Nat.succ_pos rest.length
      · rw [show ((0 : Int)).toNat = 0 from rfl, List.getD_cons_zero]
        exact hsel
      · intro j hj
        exact absurd hj (by omega)
    · have hselF : it.is_selectable = false := by
        cases hb : it.is_selectable
        · rfl
        · exact absurd hb hsel
      have hrec : find_first_selectable (it :: rest) =
          (if find_first_selectable rest = -1 then -1 else find_first_selectable rest + 1) := by
        simp [find_first_selectable, hsel]
      rcases ih with ⟨hneg, hall⟩ | ⟨hge, hlt, hsel2, hmin⟩
      · left
        constructor
        · rw [hrec, hneg]
          simp
        · intro x hx
          rcases List.mem_cons.mp hx with rfl | hx2
          · exact hselF
          · exact hall x hx2
      · right
        have hne : find_first_selectable rest ≠ -1 := by omega
        have hval : find_first_selectable (it :: rest) = find_first_selectable rest + 1 := by
          rw [hrec, if_neg hne]
        rw [hval]
        refine ⟨by omega, ?_, ?_, ?_⟩
        · simp only [List.length_cons]
          push_cast
          omega
        · have ht : (find_first_selectable rest + 1).toNat =
              (find_first_selectable rest).toNat + 1 := by omega
          rw [ht, List.getD_cons_succ]
          exact hsel2
        · intro j hj
          cases j with
          | zero =>
            rw [List.getD_cons_zero]
            exact hselF
          | succ j2 =>
            rw [List.getD_cons_succ]
            apply hmin
            push_cast at hj
            omega

theorem navigate_structure (fetch : String → String → Int → String) (st : BrowserState)
    (host selector : String) (port : Int) (ty : Char) :
    (fetch host selector port = "" ∧
      (navigate_to fetch st host selector port ty).selected_index = st.selected_index ∧
      (navigate_to fetch st host selector port ty).current_page.items = st.current_page.items) ∨
    (fetch host selector port ≠ "" ∧
      (navigate_to fetch st host selector port ty).selected_index =
        find_first_selectable (navigate_to fetch st host selector port ty).current_page.items) := by
  by_cases hresp : fetch host selector port = ""
  · left
    refine ⟨hresp, ?_, ?_⟩ <;>
      (unfold navigate_to; rw [hresp]; split <;> simp [push_history])
  · right
    refine ⟨hresp, ?_⟩
    unfold navigate_to
    rw [if_neg hresp]

theorem go_back_structure (fetch : String → String → Int → String) (st : BrowserState) :
    ((go_back fetch st).2.selected_index = st.selected_index ∧
      (go_back fetch st).2.current_page.items = st.current_page.items) ∨
    ((go_back fetch st).2.selected_index =
      find_first_selectable (go_back fetch st).2.current_page.items) := by
  cases hh : st.history.getLast? with
  | none =>
    left
    constructor <;> (unfold go_back; rw [hh])
  | some e =>
    by_cases hresp : fetch e.host e.selector e.port = ""
    · left
      constructor <;> (unfold go_back; rw [hh]; dsimp only; rw [hresp, if_pos rfl])
    · right
      unfold go_back
      rw [hh]
      dsimp only
      rw [if_neg hresp]

theorem move_selection_invariant (st : BrowserState) (d : Int) (hinv : sel_invariant st) :
    sel_invariant (move_selection st d) := by
  by_cases hnil : st.current_page.items.length = 0
  · have hm : move_selection st d = st := by
      simp only [move_selection]
      rw [if_pos hnil]
    rw [hm]
    exact hinv
  · have hsel2 : -1 ≤ st.selected_index := by
      rcases hinv with h | ⟨h, _, _⟩ <;> omega
    unfold sel_invariant
    rw [(move_selection_frame st d).1, move_selection_selected st d hnil]
    cases hsf : scan_from st.current_page.items d (st.current_page.items.length + 1)
        (st.selected_index + d) with
    | some i =>
      obtain ⟨h1, h2, h3⟩ := scan_from_some st.current_page.items d _ _ _ hsf
      exact Or.inr ⟨h1, h2, h3⟩
    | none =>
      by_cases h0 : 0 < d
      · rw [if_pos h0]
        cases hasc : asc_scan st.current_page.items st.selected_index 0 with
        | some j =>
          obtain ⟨_, h2, h3⟩ := asc_scan_some st.current_page.items st.selected_index 0 j hasc
          dsimp only
          refine Or.inr ⟨Int.natCast_nonneg j, by exact_mod_cast h2, ?_⟩
          rw [Int.toNat_natCast]
          exact h3
        | none => exact hinv
      · rw [if_neg h0]
        cases hdesc : desc_scan st.current_page.items st.selected_index
            ((st.current_page.items.length : Int) - 1) with
        | some j =>
          obtain ⟨h1, h2, h3⟩ := desc_scan_some st.current_page.items st.selected_index _ j hdesc
          dsimp only
          refine Or.inr ⟨by omega, by omega, h3⟩
        | none => exact hinv

/-- C10: after every `navigate_to`, `go_back` and `move_selection` the
selection index is either `-1` or a valid index of a selectable item of the
current page; a successful load sets it to the first selectable index (with
`-1` when no item is selectable), and `move_selection` only ever assigns
indices of selectable items. -/
theorem selection_index_invariant (fetch : String → String → Int → String)
    (st : BrowserState) (host selector : String) (port : Int) (ty : Char) (d : Int)
    (hinv : sel_invariant st) (hd : d = 1 ∨ d = -1) :
    sel_invariant (navigate_to fetch st host selector port ty) ∧
    sel_invariant (go_back fetch st).2 ∧
    sel_invariant (move_selection st d) ∧
    (fetch host selector port ≠ "" →
      is_first_selectable_index
        (navigate_to fetch st host selector port ty).current_page.items
        (navigate_to fetch st host selector port ty).selected_index) := by
  refine ⟨?_, ?_, move_selection_invariant st d hinv, ?_⟩
  · rcases navigate_structure fetch st host selector port ty with ⟨_, hsel, hitems⟩ | ⟨_, hfirst⟩
    · unfold sel_invariant at hinv ⊢
      rw [hsel, hitems]
      exact hinv
    · unfold sel_invariant
      rw [hfirst]
      rcases find_first_selectable_spec
          (navigate_to fetch st host selector port ty).current_page.items with
        ⟨h1, _⟩ | ⟨h1, h2, h3, _⟩
      · exact Or.inl h1
      · exact Or.inr ⟨h1, h2, h3⟩
  · rcases go_back_structure fetch st with ⟨hsel, hitems⟩ | hfirst
    · unfold sel_invariant at hinv ⊢
      rw [hsel, hitems]
      exact hinv
    · unfold sel_invariant
      rw [hfirst]
      rcases find_first_selectable_spec (go_back fetch st).2.current_page.items with
        ⟨h1, _⟩ | ⟨h1, h2, h3, _⟩
      · exact Or.inl h1
      · exact Or.inr ⟨h1, h2, h3⟩
  · intro hresp
    rcases navigate_structure fetch st host selector port ty with ⟨he, _, _⟩ | ⟨_, hfirst⟩
    · exact absurd he hresp
    · rw [hfirst]
      exact find_first_selectable_spec _

/-- Witness for C10 at a concrete state, fetch oracle and direction. -/
theorem selection_index_invariant_witness :
    sel_invariant moveStateEx ∧
    ((1 : Int) = 1 ∨ (1 : Int) = -1) ∧
    (sel_invariant (navigate_to fetchMenuEx moveStateEx "sdf.org" "/" 70 GOPHER_MENU) ∧
      sel_invariant (go_back fetchMenuEx moveStateEx).2 ∧
      sel_invariant (move_selection moveStateEx 1) ∧
      (fetchMenuEx "sdf.org" "/" 70 ≠ "" →
        is_first_selectable_index
          (navigate_to fetchMenuEx moveStateEx "sdf.org" "/" 70 GOPHER_MENU).current_page.items
          (navigate_to fetchMenuEx moveStateEx "sdf.org" "/" 70 GOPHER_MENU).selected_index)) :=
  ⟨Or.inr ⟨by decide, by decide, by decide⟩, Or.inl rfl,
    selection_index_invariant fetchMenuEx moveStateEx "sdf.org" "/" 70 GOPHER_MENU 1
      (Or.inr ⟨by decide, by decide, by decide⟩) (Or.inl rfl)⟩
